import Mathlib

/-!
Verification of `preprocess_hubert_f0.py` (so-vits-svc preprocessing script).

The script derives per-file feature artifacts (F0/voicing, spectrogram,
volume, mel, augmented mel, augmented volume), each write gated by an
`os.path.exists` check, and fans the file list out to a process pool by
static contiguous slicing.  We embed:

* Python's `str.replace` (used for the spectrogram path
  `filename.replace(".wav", ".spec.pt")`), which replaces every
  occurrence of the pattern, scanning left to right;
* the six artifact path constructors;
* `process_one` as a pure function of the filename, a filesystem
  predicate (which paths exist), the sample rate returned by loading the
  file, the configured target rate, and the `diff` / `vol_embedding` /
  `mel_extractor is not None` flags.  The result records the list of
  paths written (in order), the feature computations performed, and the
  exception raised, if any (the explicit `ValueError` on sample-rate
  mismatch, or the `NameError` from reading `aug_mel_t` unassigned);
* the chunking arithmetic of `parallel_process`
  (`filenames[int(i*n/p) : int((i+1)*n/p)]`);
* the augmentation-parameter sampling of the `diff` branch over the
  reals (`random.uniform(a, b)` modelled as `a + (b - a) * u` with
  `u ∈ [0, 1]`, `1e-5` as the exact rational `1/100000`).
-/

/-- Python `s.replace(old, new)` on character lists, with explicit fuel
(one unit per scan step; `s.length` suffices when `old` is nonempty,
since each step consumes at least one character).  At each position, if
`old` is a prefix of the remaining input, emit `new` and skip
`old.length` characters; otherwise keep the character. -/
def replFuel : Nat → List Char → List Char → List Char → List Char
  | 0, s, _, _ => s
  | fuel+1, s, old, new =>
    match s with
    | [] => []
    | c :: rest =>
      if old.isPrefixOf (c :: rest) then
        new ++ replFuel fuel ((c :: rest).drop old.length) old new
      else
        c :: replFuel fuel rest old new

/-- Python `s.replace(old, new)` for strings (every occurrence replaced). -/
def pyReplace (s old new : String) : String :=
  String.mk (replFuel s.data.length s.data old.data new.data)

/-- `f0_path = filename + ".f0.npy"` (line 34). -/
def f0Path (filename : String) : String := filename ++ ".f0.npy"

/-- `spec_path = filename.replace(".wav", ".spec.pt")` (line 42). -/
def specPath (filename : String) : String := pyReplace filename ".wav" ".spec.pt"

/-- `volume_path = filename + ".vol.npy"` (line 63). -/
def volPath (filename : String) : String := filename ++ ".vol.npy"

/-- `mel_path = filename + ".mel.npy"` (line 70). -/
def melPath (filename : String) : String := filename ++ ".mel.npy"

/-- `aug_mel_path = filename + ".aug_mel.npy"` (line 75). -/
def augMelPath (filename : String) : String := filename ++ ".aug_mel.npy"

/-- `aug_vol_path = filename + ".aug_vol.npy"` (line 76). -/
def augVolPath (filename : String) : String := filename ++ ".aug_vol.npy"

/-- The exceptions `process_one` itself can raise: the explicit
`ValueError` on sample-rate mismatch (line 45) and the `NameError` from
reading `aug_mel_t` when it was never assigned (line 83). -/
inductive PyError where
  | valueError : PyError
  | nameError : PyError
deriving DecidableEq

/-- The feature-extraction computations of `process_one`: F0/voicing
(line 37), spectrogram (line 51), volume (line 66), mel (line 72),
augmented mel (line 82), augmented volume (line 84). -/
inductive Step where
  | f0 : Step
  | spec : Step
  | volume : Step
  | mel : Step
  | augMel : Step
  | augVol : Step
deriving DecidableEq

/-- Observable outcome of one `process_one` call: the artifact paths
written in order, the feature computations performed in order, and the
exception raised (`none` when the call returns normally). -/
structure RunResult where
  writes : List String
  computed : List Step
  err : Option PyError
deriving DecidableEq

/-- Shallow embedding of `process_one(filename, f0p, device, diff,
mel_extractor)` (lines 29-88).  `fsx p = true` means path `p` exists on
disk when checked; no path is checked after being written in the same
call, so a static predicate is faithful.  `sr` is the sample rate
returned by `librosa.load` (the call requests `sampling_rate`, so in the
running program `sr = srTarget`); `srTarget` is `hps.data.sampling_rate`.
`volEmb` is `hps.model.vol_embedding`, `melSome` is
`mel_extractor is not None`. -/
def process_one (f : String) (fsx : String → Bool) (sr srTarget : Nat)
    (diff volEmb melSome : Bool) : RunResult :=
  let w1 : List String := if fsx (f0Path f) = true then [] else [f0Path f]
  let c1 : List Step := if fsx (f0Path f) = true then [] else [Step.f0]
  if fsx (specPath f) = false ∧ sr ≠ srTarget then
    ⟨w1, c1, some PyError.valueError⟩
  else
    let w2 := w1 ++ (if fsx (specPath f) = true then [] else [specPath f])
    let c2 := c1 ++ (if fsx (specPath f) = true then [] else [Step.spec])
    let w3 := w2 ++
      (if (diff = true ∨ volEmb = true) ∧ fsx (volPath f) = false then [volPath f] else [])
    let c3 := c2 ++
      (if (diff = true ∨ volEmb = true) ∧ fsx (volPath f) = false then [Step.volume] else [])
    if diff = false then ⟨w3, c3, none⟩
    else
      let w4 := w3 ++
        (if fsx (melPath f) = false ∧ melSome = true then [melPath f] else [])
      let c4 := c3 ++
        (if fsx (melPath f) = false ∧ melSome = true then [Step.mel] else [])
      if melSome = false then ⟨w4, c4, some PyError.nameError⟩
      else
        let c5 := c4 ++ [Step.augMel, Step.augVol]
        let w5 := w4 ++ (if fsx (augMelPath f) = true then [] else [augMelPath f]) ++
          (if fsx (augVolPath f) = true then [] else [augVolPath f])
        ⟨w5, c5, none⟩

/-- `int(i * len(filenames) / num_processes)` (lines 99-100): the start
index of worker `i`'s slice over `n` filenames and `p` workers. -/
def chunkStart (n p i : Nat) : Nat := i * n / p

/-- `filenames[start:end]` for worker `i` (line 101). -/
def fileChunk (filenames : List String) (p i : Nat) : List String :=
  (filenames.drop (chunkStart filenames.length p i)).take
    (chunkStart filenames.length p (i+1) - chunkStart filenames.length p i)

/-- The chunks `parallel_process` submits, in order of `i` (lines 98-102). -/
def workerChunks (filenames : List String) (p : Nat) : List (List String) :=
  (List.range p).map (fileChunk filenames p)

/-- `float(torch.max(torch.abs(audio_norm)))` (line 77): the peak
absolute amplitude of the loaded audio, over the reals. -/
noncomputable def peakAmp (audio : List ℝ) : ℝ := (audio.map (fun x => |x|)).foldr max 0

/-- `max_amp = float(torch.max(torch.abs(audio_norm))) + 1e-5` (line 77). -/
noncomputable def maxAmp (audio : List ℝ) : ℝ := peakAmp audio + 1 / 100000

/-- `max_shift = min(1, np.log10(1/max_amp))` (line 78). -/
noncomputable def maxShift (audio : List ℝ) : ℝ := min 1 (Real.logb 10 (1 / maxAmp audio))

/-- `log10_vol_shift = random.uniform(-1, max_shift)` (line 79), with the
library call modelled as `a + (b - a) * u` for a sample `u ∈ [0, 1]`. -/
noncomputable def log10VolShift (audio : List ℝ) (u : ℝ) : ℝ :=
  -1 + (maxShift audio - (-1)) * u

/-- `keyshift = random.uniform(-5, 5)` (line 80), same sampling model. -/
noncomputable def keyshiftSample (u : ℝ) : ℝ := -5 + (5 - (-5)) * u

/-- Peak absolute amplitude of `audio_norm * (10 ** log10_vol_shift)`
(lines 82 and 84). -/
noncomputable def scaledPeak (audio : List ℝ) (s : ℝ) : ℝ :=
  peakAmp (audio.map (fun x => x * (10 : ℝ) ^ s))

/-! ### Helper lemmas -/

theorem chunkStart_mono (n p : Nat) {i j : Nat} (h : i ≤ j) :
    chunkStart n p i ≤ chunkStart n p j :=
  Nat.div_le_div_right (Nat.mul_le_mul_right n h)

theorem workerChunks_flatten_take (l : List String) (p : Nat) (k : Nat) :
    ((List.range k).map (fileChunk l p)).flatten = l.take (chunkStart l.length p k) := by
  induction k with
  | zero => simp [chunkStart]
  | succ k ih =>
    rw [List.range_succ, List.map_append, List.flatten_append]
    simp only [List.map_cons, List.map_nil, List.flatten_cons, List.flatten_nil,
      List.append_nil]
    rw [ih, fileChunk, ← List.take_add,
      Nat.add_sub_cancel' (chunkStart_mono l.length p (Nat.le_succ k))]

theorem isPrefixOf_length_le : ∀ (l₁ l₂ : List Char), l₁.isPrefixOf l₂ = true →
    l₁.length ≤ l₂.length := by
  intro l₁
  induction l₁ with
  | nil => intro l₂ _; simp
  | cons a as ih =>
    intro l₂ h
    cases l₂ with
    | nil => simp [List.isPrefixOf] at h
    | cons b bs =>
      simp only [List.isPrefixOf, Bool.and_eq_true] at h
      have := ih bs h.2
      simp only [List.length_cons]
      omega

theorem isPrefixOf_self (l : List Char) : l.isPrefixOf l = true := by
  induction l with
  | nil => rfl
  | cons a as ih => simp [List.isPrefixOf, ih]

theorem replFuel_length_ge (old new : List Char) (hlen : old.length ≤ new.length) :
    ∀ (fuel : Nat) (s : List Char), s.length ≤ (replFuel fuel s old new).length := by
  intro fuel
  induction fuel with
  | zero => intro s; exact Nat.le_refl _
  | succ n ih =>
    intro s
    cases s with
    | nil => simp [replFuel]
    | cons c rest =>
      simp only [replFuel]
      by_cases hp : old.isPrefixOf (c :: rest) = true
      · rw [if_pos hp]
        have hpre := isPrefixOf_length_le old (c :: rest) hp
        have h1 := ih ((c :: rest).drop old.length)
        rw [List.length_append]
        rw [List.length_drop] at h1
        simp only [List.length_cons] at *
        omega
      · rw [if_neg hp]
        have := ih rest
        simp only [List.length_cons]
        omega

theorem replFuel_length_lt_of_match (old new : List Char)
    (hold : 0 < old.length) (hlen : old.length < new.length)
    (n : Nat) (s : List Char) (hp : old.isPrefixOf s = true) :
    s.length < (replFuel (n+1) s old new).length := by
  cases s with
  | nil =>
    exfalso
    have := isPrefixOf_length_le old [] hp
    simp only [List.length_nil] at this
    omega
  | cons c rest =>
    simp only [replFuel]
    rw [if_pos hp]
    have hpre := isPrefixOf_length_le old (c :: rest) hp
    have h1 := replFuel_length_ge old new (Nat.le_of_lt hlen) n ((c :: rest).drop old.length)
    rw [List.length_append]
    rw [List.length_drop] at h1
    simp only [List.length_cons] at *
    omega

theorem replFuel_length_lt (old new : List Char)
    (hold : 0 < old.length) (hlen : old.length < new.length) :
    ∀ (fuel : Nat) (t : List Char), (t ++ old).length ≤ fuel →
      (t ++ old).length < (replFuel fuel (t ++ old) old new).length := by
  intro fuel
  induction fuel with
  | zero =>
    intro t h
    rw [List.length_append] at h
    omega
  | succ n ih =>
    intro t hfuel
    by_cases hp : old.isPrefixOf (t ++ old) = true
    · exact replFuel_length_lt_of_match old new hold hlen n _ hp
    · cases t with
      | nil => exact absurd (by simp [isPrefixOf_self]) hp
      | cons c t2 =>
        have hcons : (c :: t2) ++ old = c :: (t2 ++ old) := rfl
        rw [hcons] at hp hfuel ⊢
        simp only [replFuel]
        rw [if_neg hp]
        have := ih t2 (by simp only [List.length_cons] at hfuel; omega)
        simp only [List.length_cons]
        omega

theorem specPath_length_lt (f t : String) (hf : f = t ++ ".wav") :
    f.data.length < (specPath f).data.length := by
  have hdata : f.data = t.data ++ (".wav" : String).data := by
    rw [hf, String.data_append]
  have h := replFuel_length_lt (".wav" : String).data (".spec.pt" : String).data
    (by decide) (by decide) f.data.length t.data (by rw [← hdata])
  rw [← hdata] at h
  exact h

theorem string_append_ne (f s : String) (hs : s.data ≠ []) : f ++ s ≠ f := by
  intro h
  have hd := congrArg String.data h
  rw [String.data_append] at hd
  have := congrArg List.length hd
  rw [List.length_append] at this
  exact hs (List.eq_nil_of_length_eq_zero (by omega))

theorem string_append_cancel (f g s : String) (h : f ++ s = g ++ s) : f = g :=
  String.ext (List.append_cancel_right
    (by rw [← String.data_append, ← String.data_append, h]))

theorem specPath_ne_self (f t : String) (hf : f = t ++ ".wav") : specPath f ≠ f := by
  intro h
  have := specPath_length_lt f t hf
  rw [h] at this
  omega

theorem peakAmp_nonneg (audio : List ℝ) : 0 ≤ peakAmp audio := by
  induction audio with
  | nil => simp [peakAmp]
  | cons x xs ih =>
    simp only [peakAmp, List.map_cons, List.foldr_cons] at *
    exact le_trans ih (le_max_right _ _)

theorem peakAmp_map_mul (audio : List ℝ) (c : ℝ) (hc : 0 ≤ c) :
    peakAmp (audio.map (fun x => x * c)) = peakAmp audio * c := by
  induction audio with
  | nil => simp [peakAmp]
  | cons x xs ih =>
    simp only [peakAmp, List.map_cons, List.foldr_cons] at *
    rw [ih, abs_mul, abs_of_nonneg hc, max_mul_of_nonneg _ _ hc]

theorem maxAmp_pos (audio : List ℝ) : 0 < maxAmp audio := by
  have := peakAmp_nonneg audio
  rw [maxAmp]
  linarith

theorem peakAmp_lt_maxAmp (audio : List ℝ) : peakAmp audio < maxAmp audio := by
  rw [maxAmp]
  linarith

theorem maxShift_ge_neg_one (audio : List ℝ) (hamp : maxAmp audio ≤ 10) :
    -1 ≤ maxShift audio := by
  have hpos := maxAmp_pos audio
  refine le_min (by norm_num) ?_
  rw [Real.le_logb_iff_rpow_le (by norm_num) (by positivity)]
  rw [Real.rpow_neg_one, one_div]
  exact inv_anti₀ hpos hamp

theorem rpow_maxShift_le (audio : List ℝ) :
    (10 : ℝ) ^ maxShift audio ≤ 1 / maxAmp audio := by
  have hpos := maxAmp_pos audio
  calc (10 : ℝ) ^ maxShift audio
      ≤ (10 : ℝ) ^ Real.logb 10 (1 / maxAmp audio) :=
        (Real.rpow_le_rpow_left_iff (by norm_num)).mpr (min_le_right _ _)
    _ = 1 / maxAmp audio := Real.rpow_logb (by norm_num) (by norm_num) (by positivity)

/-! ### Claim theorems -/

/-- Claim C1: for `p ≥ 1` workers, the chunks
`filenames[int(i*n/p) : int((i+1)*n/p)]` built by `parallel_process`
concatenate, in order of `i`, to the whole file list, and the index
ranges of distinct chunks are disjoint (the end of chunk `i` is at most
the start of any later chunk `j`), so every filename is assigned to
exactly one worker chunk. -/
theorem parallel_process_partition (l : List String) (p : Nat) (hp : 1 ≤ p) :
    (workerChunks l p).flatten = l ∧
    (∀ i j, i < j → chunkStart l.length p (i+1) ≤ chunkStart l.length p j) := by
  constructor
  · rw [workerChunks, workerChunks_flatten_take]
    have hpp : chunkStart l.length p p = l.length := by
      simpa [chunkStart] using
        Nat.mul_div_cancel_left l.length (Nat.lt_of_lt_of_le Nat.zero_lt_one hp)
    rw [hpp, List.take_length]
  · intro i j hij
    exact chunkStart_mono l.length p hij

theorem parallel_process_partition_witness :
    1 ≤ 2 ∧ (workerChunks ["a", "b", "c"] 2).flatten = ["a", "b", "c"] :=
  ⟨by decide, (parallel_process_partition ["a", "b", "c"] 2 (by decide)).1⟩

/-- Claim C2 counterexample: with the spectrogram artifact already on
disk, the loaded sample rate 1 differs from the target 2 and yet
`process_one` raises nothing, so "raises a ValueError exactly when the
sample rate differs" is false. -/
theorem process_one_valueError_counterexample :
    (1 : Nat) ≠ 2 ∧
    (process_one "a.wav" (fun _ => true) 1 2 false false false).err = none :=
  ⟨by decide, rfl⟩

/-- Claim C2 (amended): `process_one` raises the sample-rate `ValueError`
exactly when the spectrogram artifact does not exist AND the loaded rate
differs from the target; the only other failure it signals is the
`NameError` of the diff branch, raised exactly when the spectrogram
check passes, `diff` is set and no mel extractor was supplied. -/
theorem process_one_err_iff (f : String) (fsx : String → Bool) (sr srT : Nat)
    (diff volEmb melSome : Bool) :
    ((process_one f fsx sr srT diff volEmb melSome).err = some PyError.valueError ↔
      fsx (specPath f) = false ∧ sr ≠ srT) ∧
    ((process_one f fsx sr srT diff volEmb melSome).err = some PyError.nameError ↔
      (fsx (specPath f) = true ∨ sr = srT) ∧ diff = true ∧ melSome = false) := by
  by_cases hspec : fsx (specPath f) = true <;> by_cases hsr : sr = srT <;>
    cases diff <;> cases melSome <;> simp_all [process_one]

/-- Claim C3 counterexample: with every artifact file already on disk
(`diff` on, a mel extractor supplied), the augmented-mel and
augmented-volume computations are still performed, so "each step's
computation runs only if its output file does not exist" is false for
the augmentation steps (only their `np.save` calls are gated). -/
theorem process_one_aug_computed_counterexample :
    (fun _ => true : String → Bool) (augMelPath "a.wav") = true ∧
    Step.augMel ∈ (process_one "a.wav" (fun _ => true) 44100 44100 true false true).computed ∧
    Step.augVol ∈ (process_one "a.wav" (fun _ => true) 44100 44100 true false true).computed := by
  refine ⟨rfl, ?_, ?_⟩ <;> decide

/-- Claim C3 (amended): the F0/voicing, spectrogram, volume and mel
computations are each performed only if the step's output file does not
already exist; the augmented-mel and augmented-volume computations,
however, run whenever the diff branch is reached with a mel extractor,
regardless of whether their output files exist (only the saves are
gated). -/
theorem process_one_step_gating (f : String) (fsx : String → Bool) (sr srT : Nat)
    (diff volEmb melSome : Bool) :
    (Step.f0 ∈ (process_one f fsx sr srT diff volEmb melSome).computed →
      fsx (f0Path f) = false) ∧
    (Step.spec ∈ (process_one f fsx sr srT diff volEmb melSome).computed →
      fsx (specPath f) = false) ∧
    (Step.volume ∈ (process_one f fsx sr srT diff volEmb melSome).computed →
      fsx (volPath f) = false) ∧
    (Step.mel ∈ (process_one f fsx sr srT diff volEmb melSome).computed →
      fsx (melPath f) = false) ∧
    (diff = true → melSome = true → (fsx (specPath f) = true ∨ sr = srT) →
      Step.augMel ∈ (process_one f fsx sr srT diff volEmb melSome).computed ∧
      Step.augVol ∈ (process_one f fsx sr srT diff volEmb melSome).computed) := by
  by_cases hspec : fsx (specPath f) = true <;> by_cases hsr : sr = srT <;>
    by_cases h0 : fsx (f0Path f) = true <;> by_cases hv : fsx (volPath f) = true <;>
    by_cases hm : fsx (melPath f) = true <;>
    cases diff <;> cases volEmb <;> cases melSome <;> simp_all [process_one]

/-- Claim C4: if every artifact path for a filename already exists, a run
of `process_one` performs no file writes (in every configuration of
`diff`, `vol_embedding` and the mel extractor, and for every loaded
sample rate), so a second run leaves the artifacts of the first run
unchanged. -/
theorem process_one_idempotent (f : String) (fsx : String → Bool) (sr srT : Nat)
    (diff volEmb melSome : Bool)
    (h0 : fsx (f0Path f) = true) (h1 : fsx (specPath f) = true)
    (h2 : fsx (volPath f) = true) (h3 : fsx (melPath f) = true)
    (h4 : fsx (augMelPath f) = true) (h5 : fsx (augVolPath f) = true) :
    (process_one f fsx sr srT diff volEmb melSome).writes = [] := by
  cases diff <;> cases melSome <;> simp [process_one, h0, h1, h2, h3, h4, h5]

theorem process_one_idempotent_witness :
    (fun _ => true : String → Bool) (f0Path "a.wav") = true ∧
    (process_one "a.wav" (fun _ => true) 44100 44100 true false true).writes = [] :=
  ⟨rfl, process_one_idempotent "a.wav" (fun _ => true) 44100 44100 true false true
    rfl rfl rfl rfl rfl rfl⟩

/-- Claim C5 counterexample: on a fresh filesystem with `diff` off and
`vol_embedding` off, `process_one` writes exactly two artifacts (F0 and
spectrogram), so "between four and six derived artifacts regardless of
the diff flag and the vol_embedding setting" is false. -/
theorem process_one_fresh_write_count_counterexample :
    (process_one "a.wav" (fun _ => false) 44100 44100 false false false).writes.length = 2 ∧
    ¬ 4 ≤ (process_one "a.wav" (fun _ => false) 44100 44100 false false false).writes.length := by
  constructor <;> decide

/-- Claim C5 (amended): on a fresh filesystem (no artifact exists, sample
rate matching), `process_one` computes and caches between two and six
derived artifacts depending on the configuration: two (F0, spectrogram)
with `diff` and `vol_embedding` off, three with only `vol_embedding`,
six with `diff` and a mel extractor, and three (before the `NameError`)
with `diff` but no mel extractor. -/
theorem process_one_fresh_write_count (f : String) (srT : Nat)
    (diff volEmb melSome : Bool) :
    (process_one f (fun _ => false) srT srT diff volEmb melSome).writes.length =
      if diff = true then (if melSome = true then 6 else 3)
      else (if volEmb = true then 3 else 2) := by
  cases diff <;> cases melSome <;> cases volEmb <;> simp [process_one]

/-- Claim C6 counterexample: Python `str.replace` replaces every
occurrence of `".wav"`, so the two distinct filenames `"a.wav.wav"` and
`"a.spec.pt.wav"`, both ending in `".wav"`, get the same spectrogram
artifact path — "distinct input filenames yield distinct artifact paths"
is false. -/
theorem specPath_collision_counterexample :
    specPath "a.wav.wav" = specPath "a.spec.pt.wav" ∧
    ("a.wav.wav" : String) ≠ "a.spec.pt.wav" ∧
    ("a.wav.wav" : String) = "a.wav" ++ ".wav" ∧
    ("a.spec.pt.wav" : String) = "a.spec.pt" ++ ".wav" := by
  refine ⟨rfl, by decide, rfl, rfl⟩

/-- Claim C6 (amended): every artifact path is the filename with a fixed
suffix appended, or its `".wav"` occurrences replaced by `".spec.pt"`;
for every filename ending in `".wav"`, every artifact path differs from
the input path, and for the five suffix-appended artifacts distinct
input filenames yield distinct artifact paths.  (The spectrogram path is
not injective, since `str.replace` replaces every occurrence of
`".wav"`, not just a final one.) -/
theorem process_one_artifact_paths (f g t : String) (hf : f = t ++ ".wav") :
    (f0Path f ≠ f ∧ volPath f ≠ f ∧ melPath f ≠ f ∧ augMelPath f ≠ f ∧
      augVolPath f ≠ f ∧ specPath f ≠ f) ∧
    ((f0Path f = f0Path g → f = g) ∧ (volPath f = volPath g → f = g) ∧
      (melPath f = melPath g → f = g) ∧ (augMelPath f = augMelPath g → f = g) ∧
      (augVolPath f = augVolPath g → f = g)) :=
  ⟨⟨string_append_ne f ".f0.npy" (by decide), string_append_ne f ".vol.npy" (by decide),
    string_append_ne f ".mel.npy" (by decide), string_append_ne f ".aug_mel.npy" (by decide),
    string_append_ne f ".aug_vol.npy" (by decide), specPath_ne_self f t hf⟩,
    string_append_cancel f g ".f0.npy", string_append_cancel f g ".vol.npy",
    string_append_cancel f g ".mel.npy", string_append_cancel f g ".aug_mel.npy",
    string_append_cancel f g ".aug_vol.npy"⟩

theorem process_one_artifact_paths_witness :
    (f0Path "a.wav" ≠ "a.wav" ∧ volPath "a.wav" ≠ "a.wav" ∧ melPath "a.wav" ≠ "a.wav" ∧
      augMelPath "a.wav" ≠ "a.wav" ∧ augVolPath "a.wav" ≠ "a.wav" ∧
      specPath "a.wav" ≠ "a.wav") ∧
    ((f0Path "a.wav" = f0Path "b.wav" → ("a.wav" : String) = "b.wav") ∧
      (volPath "a.wav" = volPath "b.wav" → ("a.wav" : String) = "b.wav") ∧
      (melPath "a.wav" = melPath "b.wav" → ("a.wav" : String) = "b.wav") ∧
      (augMelPath "a.wav" = augMelPath "b.wav" → ("a.wav" : String) = "b.wav") ∧
      (augVolPath "a.wav" = augVolPath "b.wav" → ("a.wav" : String) = "b.wav")) :=
  process_one_artifact_paths "a.wav" "b.wav" "a" rfl

/-- Claim C7: with `diff` off and `vol_embedding` off, every path
`process_one` writes is the F0/voicing file or the spectrogram file; no
other path is written. -/
theorem process_one_no_diff_no_vol_writes (f : String) (fsx : String → Bool)
    (sr srT : Nat) (melSome : Bool) :
    ∀ pth ∈ (process_one f fsx sr srT false false melSome).writes,
      pth = f0Path f ∨ pth = specPath f := by
  intro pth hmem
  by_cases h1 : fsx (f0Path f) = true <;> by_cases h2 : fsx (specPath f) = true <;>
    by_cases h3 : sr = srT <;> simp_all [process_one]

theorem process_one_no_diff_no_vol_writes_witness :
    f0Path "a.wav" = f0Path "a.wav" ∨ f0Path "a.wav" = specPath "a.wav" :=
  process_one_no_diff_no_vol_writes "a.wav" (fun _ => false) 1 1 false
    (f0Path "a.wav") (by decide)

/-- Claim C8: with `diff` on and no mel extractor, `process_one` ends in
the `NameError` from reading `aug_mel_t` unassigned, for every
filesystem state (whichever artifact files exist) and every
`vol_embedding` setting; the loaded rate equals the target here, as
`librosa.load` is called with `sr=sampling_rate` and returns that rate. -/
theorem process_one_nameError (f : String) (fsx : String → Bool) (srT : Nat)
    (volEmb : Bool) :
    (process_one f fsx srT srT true volEmb false).err = some PyError.nameError := by
  simp [process_one]

/-- Claim C9: the sample-rate check is cache-gated: whenever the
spectrogram artifact already exists, `process_one` never raises the
sample-rate `ValueError`, even when the loaded rate differs from the
target. -/
theorem process_one_srCheck_cache_gated (f : String) (fsx : String → Bool)
    (sr srT : Nat) (diff volEmb melSome : Bool)
    (hspec : fsx (specPath f) = true) :
    (process_one f fsx sr srT diff volEmb melSome).err ≠ some PyError.valueError := by
  cases diff <;> cases melSome <;> simp [process_one, hspec]

theorem process_one_srCheck_cache_gated_witness :
    (fun _ => true : String → Bool) (specPath "a.wav") = true ∧
    (process_one "a.wav" (fun _ => true) 1 2 true true false).err ≠ some PyError.valueError :=
  ⟨rfl, process_one_srCheck_cache_gated "a.wav" (fun _ => true) 1 2 true true false rfl⟩

/-- Claim C10 counterexample: for audio with peak amplitude 100 (so
`max_amp > 10` and `max_shift < -1`), the sample at `u = 0` gives
`log10_vol_shift = -1`, which exceeds `max_shift`, and the peak of the
volume-scaled audio is `100 * 10^(-1) = 10 > 1` — both claimed bounds
fail. -/
theorem aug_params_counterexample :
    (0 : ℝ) ≤ 0 ∧ (0 : ℝ) ≤ 1 ∧
    ¬ log10VolShift [(100 : ℝ)] 0 ≤ maxShift [(100 : ℝ)] ∧
    1 < scaledPeak [(100 : ℝ)] (log10VolShift [(100 : ℝ)] 0) := by
  have hs : log10VolShift [(100 : ℝ)] 0 = -1 := by
    rw [log10VolShift]; ring
  have hA : maxAmp [(100 : ℝ)] = 100 + 1 / 100000 := by
    simp [maxAmp, peakAmp]
  have hlt : maxShift [(100 : ℝ)] < -1 := by
    rw [maxShift]
    refine lt_of_le_of_lt (min_le_right _ _) ?_
    rw [hA, Real.logb_lt_iff_lt_rpow (by norm_num) (by norm_num)]
    rw [Real.rpow_neg_one]
    norm_num
  refine ⟨le_refl 0, by norm_num, by rw [hs]; linarith, ?_⟩
  rw [hs, scaledPeak]
  simp only [List.map_cons, List.map_nil, peakAmp, List.foldr_cons, List.foldr_nil]
  rw [Real.rpow_neg_one]
  rw [abs_of_nonneg (by norm_num : (0 : ℝ) ≤ 100 * (10 : ℝ)⁻¹)]
  norm_num

/-- Claim C10 (amended): for every sample `u ∈ [0, 1]`, `keyshift` lies
in `[-5, 5]`; and provided the peak amplitude is small enough that
`max_amp ≤ 10` (so `max_shift ≥ -1`, which holds for normalized audio),
`log10_vol_shift` lies in `[-1, min(1, log10(1/max_amp))]` and the peak
absolute amplitude of the volume-scaled audio stays below 1. -/
theorem aug_params_bounded (audio : List ℝ) (u : ℝ) (hu0 : 0 ≤ u) (hu1 : u ≤ 1)
    (hamp : maxAmp audio ≤ 10) :
    (-5 ≤ keyshiftSample u ∧ keyshiftSample u ≤ 5) ∧
    (-1 ≤ log10VolShift audio u ∧ log10VolShift audio u ≤ maxShift audio) ∧
    scaledPeak audio (log10VolShift audio u) < 1 := by
  have hms : -1 ≤ maxShift audio := maxShift_ge_neg_one audio hamp
  have hsl : -1 ≤ log10VolShift audio u := by
    rw [log10VolShift]
    nlinarith
  have hsu : log10VolShift audio u ≤ maxShift audio := by
    rw [log10VolShift]
    nlinarith
  refine ⟨⟨by rw [keyshiftSample]; nlinarith, by rw [keyshiftSample]; nlinarith⟩,
    ⟨hsl, hsu⟩, ?_⟩
  have h10pos : (0 : ℝ) < (10 : ℝ) ^ log10VolShift audio u :=
    Real.rpow_pos_of_pos (by norm_num) _
  rw [scaledPeak, peakAmp_map_mul _ _ h10pos.le]
  have hstep : (10 : ℝ) ^ log10VolShift audio u ≤ 1 / maxAmp audio :=
    le_trans ((Real.rpow_le_rpow_left_iff (by norm_num)).mpr hsu)
      (rpow_maxShift_le audio)
  have hpos := maxAmp_pos audio
  calc peakAmp audio * (10 : ℝ) ^ log10VolShift audio u
      ≤ peakAmp audio * (1 / maxAmp audio) :=
        mul_le_mul_of_nonneg_left hstep (peakAmp_nonneg audio)
    _ = peakAmp audio / maxAmp audio := by ring
    _ < 1 := (div_lt_one hpos).mpr (peakAmp_lt_maxAmp audio)

theorem aug_params_bounded_witness :
    maxAmp [(0 : ℝ)] ≤ 10 ∧
    ((-5 ≤ keyshiftSample 0 ∧ keyshiftSample 0 ≤ 5) ∧
      (-1 ≤ log10VolShift [(0 : ℝ)] 0 ∧ log10VolShift [(0 : ℝ)] 0 ≤ maxShift [(0 : ℝ)]) ∧
      scaledPeak [(0 : ℝ)] (log10VolShift [(0 : ℝ)] 0) < 1) := by
  have hamp : maxAmp [(0 : ℝ)] ≤ 10 := by
    simp [maxAmp, peakAmp]
    norm_num
  exact ⟨hamp, aug_params_bounded [(0 : ℝ)] 0 (le_refl 0) (by norm_num) hamp⟩
